import Mathlib

/-!
Shallow embedding of the oclc offline OpenCL kernel compiler (src/main.cpp)
and its execution verifier (src/test/main.cpp), together with theorems about
the embedded operations.

The OpenCL runtime is modelled as a fixed transcript of responses (a `World`):
each runtime entry point reads its status code and output data from the
transcript.  Statuses are `Int` (cl_int), handles are `Nat`, host strings are
Lean strings.  Exceptions thrown through KOTLIB_THROW_IF and the exceptions
escaping from std::unordered_map::at are modelled with `Except`.
-/

namespace Oclc

/-! Status and device-type constants, values taken from the CL headers. -/

def CL_SUCCESS : Int := 0

def CL_BUILD_PROGRAM_FAILURE : Int := -11

def CL_INVALID_BUILD_OPTIONS : Int := -43

def CL_DEVICE_TYPE_DEFAULT : Int := 1

def CL_DEVICE_TYPE_CPU : Int := 2

def CL_DEVICE_TYPE_GPU : Int := 4

def CL_DEVICE_TYPE_ALL : Int := 4294967295

/-- Constant kNDefaultPlatformEntry from src/main.cpp line 21. -/
def kNDefaultPlatformEntry : Nat := 16

/-- Constant kNDefaultDeviceEntry from src/main.cpp line 22. -/
def kNDefaultDeviceEntry : Nat := 16

/-- Constant MAX_DEVICE_IDS from src/main.cpp line 164 (used by showInfo). -/
def kMaxDeviceIds : Nat := 8

/-! Model of std::to_string: decimal digit strings. The accumulator-style
recursion produces the digits most significant first. -/

/-- Decimal digits of `n`, most significant first, prepended to `acc`; the
fuel bounds the recursion depth and any fuel at least `n` is enough. -/
def decDigitsGo (fuel n : Nat) (acc : List Char) : List Char :=
  match fuel with
  | 0 => Char.ofNat (48 + n % 10) :: acc
  | f + 1 =>
    if n < 10 then Char.ofNat (48 + n % 10) :: acc
    else decDigitsGo f (n / 10) (Char.ofNat (48 + n % 10) :: acc)

/-- Model of std::to_string applied to an unsigned value. -/
def natToString (n : Nat) : String := String.mk (decDigitsGo n n [])

/-- Model of std::to_string applied to a signed value (cl_int). -/
def intToString (z : Int) : String :=
  if z < 0 then "-" ++ natToString z.natAbs else natToString z.natAbs

/-- Number of decimal digits produced for `n`. -/
def decLen (n : Nat) : Nat :=
  if _h : n < 10 then 1 else decLen (n / 10) + 1
termination_by n
decreasing_by exact Nat.div_lt_self (by omega) (by omega)

/-- Value read back from a digit list (decimal parse). -/
def decVal (l : List Char) : Nat :=
  l.foldl (fun a c => a * 10 + (c.toNat - 48)) 0

/-! Model of removeSuffix (src/main.cpp lines 109 to 113):
filename.substr(0, filename.find_last_of(".")).  When find_last_of returns
npos, substr(0, npos) keeps the whole string. -/

/-- Index of the last occurrence of `c` in `l`, if any; model of
std::string::find_last_of with a one-character set. -/
def findLastOf (l : List Char) (c : Char) : Option Nat :=
  match l with
  | [] => none
  | x :: xs =>
    match findLastOf xs c with
    | some p => some (p + 1)
    | none => if x = c then some 0 else none

/-- Model of removeSuffix from src/main.cpp lines 109 to 113. -/
def removeSuffix (filename : String) : String :=
  match findLastOf filename.data '.' with
  | none => filename
  | some p => String.mk (filename.data.take p)

/-! Exceptions. KOTLIB_THROW_IF raises std::runtime_error with a message;
std::unordered_map::at raises std::out_of_range when the key is absent. -/

/-- Exception escaping from the macro expansion. -/
inductive OclcExc where
  | runtimeError (msg : String)
  | outOfRange
deriving DecidableEq, Repr

/-- Message produced by what() at the top level catch; the text carried by
std::out_of_range is implementation defined and modelled by a fixed string. -/
def excMessage : OclcExc → String
  | OclcExc.runtimeError m => m
  | OclcExc.outOfRange => "std::out_of_range"

/-- Lookup with the semantics of std::unordered_map::at: the mapped value
when the key is present, nothing otherwise (the caller then raises
std::out_of_range). -/
def mapAt (table : List (Int × String)) (code : Int) : Option String :=
  (table.find? (fun p => p.1 == code)).map (fun p => p.2)

/-- Model of the OCLC_CHECK_ERROR macro (src/main.cpp lines 31 to 32).  If
errCode is not CL_SUCCESS it throws std::runtime_error carrying the message
built from the code and the table entry; when the code is absent from the
table, std::unordered_map::at itself raises std::out_of_range before any
message is built. -/
def checkError (table : List (Int × String)) (errCode : Int) : Except OclcExc Unit :=
  if errCode = CL_SUCCESS then Except.ok ()
  else
    match mapAt table errCode with
    | some msg =>
      Except.error (OclcExc.runtimeError
        ("[OpenCL] [" ++ intToString errCode ++ "] " ++ msg))
    | none => Except.error OclcExc.outOfRange

/-- Model of the OCLC_CHECK_ERROR_WITH_MSG macro (src/main.cpp lines 34 to
35): same as checkError with an extra message appended after a newline. -/
def checkErrorWithMsg (table : List (Int × String)) (errCode : Int) (extra : String) :
    Except OclcExc Unit :=
  if errCode = CL_SUCCESS then Except.ok ()
  else
    match mapAt table errCode with
    | some msg =>
      Except.error (OclcExc.runtimeError
        ("[OpenCL] [" ++ intToString errCode ++ "] " ++ msg ++ "\n" ++ extra))
    | none => Except.error OclcExc.outOfRange

/-- Modelled from the spec: the code to message lookup table declared in
oclErrorCode.h, a header of this repository that is not under src; the spec
describes it as an incomplete mapping from runtime status codes to message
strings.  Representative entries over standard OpenCL status codes. -/
def kErrorMessageMap : List (Int × String) :=
  [(-1, "CL_DEVICE_NOT_FOUND"),
   (-2, "CL_DEVICE_NOT_AVAILABLE"),
   (-3, "CL_COMPILER_NOT_AVAILABLE"),
   (-11, "CL_BUILD_PROGRAM_FAILURE"),
   (-30, "CL_INVALID_VALUE"),
   (-43, "CL_INVALID_BUILD_OPTIONS")]

/-- Greatest absolute value among the keys of a table. -/
def tableKeyBound (table : List (Int × String)) : Nat :=
  table.foldr (fun p m => max p.1.natAbs m) 0

/-! Device handle accesses of the clCreateContext call (src/main.cpp lines
235 to 236) and of the clBuildProgram call (line 258): both pass the address
of deviceIds[di] as the base of an array of deviceIds.size() device handles,
so the runtime reads the handles at indices di, di+1, ..., di+size-1. -/

/-- Indices of deviceIds read through the pointer passed to clCreateContext
and clBuildProgram: base index di, count deviceCount. -/
def accessedDeviceIndices (deviceCount di : Nat) : List Nat :=
  (List.range deviceCount).map (fun k => di + k)

/-- Every access falls inside the enumerated device sequence. -/
def accessInBounds (deviceCount di : Nat) : Prop :=
  ∀ j ∈ accessedDeviceIndices deviceCount di, j < deviceCount

instance (deviceCount di : Nat) : Decidable (accessInBounds deviceCount di) :=
  List.decidableBAll _ _

/-- Map kDeviceTypeMap from src/main.cpp lines 23 to 28. -/
def kDeviceTypeMap : List (String × Int) :=
  [("all", CL_DEVICE_TYPE_ALL),
   ("default", CL_DEVICE_TYPE_DEFAULT),
   ("cpu", CL_DEVICE_TYPE_CPU),
   ("gpu", CL_DEVICE_TYPE_GPU)]

/-- Lookup kDeviceTypeMap.at(s): std::out_of_range on an unknown name. -/
def deviceTypeAt (s : String) : Except OclcExc Int :=
  match (kDeviceTypeMap.find? (fun p => p.1 == s)).map (fun p => p.2) with
  | some t => Except.ok t
  | none => Except.error OclcExc.outOfRange

/-! Runtime transcript and the embedded compiler pipeline (src/main.cpp). -/

/-- One fixed transcript of OpenCL runtime responses for a process run.
Each field is the data or status the corresponding entry point reports. -/
structure World where
  table : List (Int × String)
  platformErr : Int
  nPlatform : Nat
  platformIdAt : Nat → Nat
  platformNameErr : Nat → Int
  platformVersionErr : Nat → Int
  deviceNameErr : Nat → Int
  deviceVersionErr : Nat → Int
  deviceErr : Nat → Int → Int
  nDevice : Nat → Int → Nat
  deviceIdAt : Nat → Int → Nat → Nat
  fileContent : String → Option String
  contextErr : List Nat → Int
  createProgramErr : Int
  buildErr : Int
  buildLog : String
  numDevicesErr : Int
  progNumDevices : Nat
  binSizesErr : Int
  binSize : Nat → Nat
  binariesErr : Int
  openOk : String → Bool

/-- Semantics of std::vector resize: truncate, or pad with value
initialized elements. -/
def vectorResize (xs : List Nat) (n : Nat) : List Nat :=
  if n ≤ xs.length then xs.take n else xs ++ List.replicate (n - xs.length) 0

/-- Model of getPlatformIds (src/main.cpp lines 43 to 52): allocate a buffer
of nPlatformEntry entries, let the runtime fill it and report a count, check
the status, then resize the vector to the reported count. -/
def getPlatformIds (w : World) (nPlatformEntry : Nat) : Except OclcExc (List Nat) :=
  match checkError w.table w.platformErr with
  | Except.error e => Except.error e
  | Except.ok _ =>
    Except.ok (vectorResize ((List.range nPlatformEntry).map w.platformIdAt) w.nPlatform)

/-- Model of getDeviceIds (src/main.cpp lines 62 to 71): same shape as
getPlatformIds, per platform and device type. -/
def getDeviceIds (w : World) (platformId : Nat) (nDeviceEntry : Nat) (deviceType : Int) :
    Except OclcExc (List Nat) :=
  match checkError w.table (w.deviceErr platformId deviceType) with
  | Except.error e => Except.error e
  | Except.ok _ =>
    Except.ok (vectorResize
      ((List.range nDeviceEntry).map (w.deviceIdAt platformId deviceType))
      (w.nDevice platformId deviceType))

/-- Model of showPlatformInfo (src/main.cpp lines 120 to 133): two info
queries, each status checked; the printed text is not modelled. -/
def showPlatformInfo (w : World) (platformId : Nat) : Except OclcExc Unit :=
  match checkError w.table (w.platformNameErr platformId) with
  | Except.error e => Except.error e
  | Except.ok _ => checkError w.table (w.platformVersionErr platformId)

/-- Model of showDeviceInfo (src/main.cpp lines 140 to 153). -/
def showDeviceInfo (w : World) (deviceId : Nat) : Except OclcExc Unit :=
  match checkError w.table (w.deviceNameErr deviceId) with
  | Except.error e => Except.error e
  | Except.ok _ => checkError w.table (w.deviceVersionErr deviceId)

/-- Inner device loop of showInfo (src/main.cpp lines 172 to 175). -/
def showInfoDevicesLoop (w : World) : List Nat → Except OclcExc Unit
  | [] => Except.ok ()
  | d :: ds =>
    match showDeviceInfo w d with
    | Except.error e => Except.error e
    | Except.ok _ => showInfoDevicesLoop w ds

/-- Platform loop of showInfo (src/main.cpp lines 161 to 178). -/
def showInfoLoop (w : World) (deviceType : Int) : List Nat → Except OclcExc Unit
  | [] => Except.ok ()
  | p :: ps =>
    match showPlatformInfo w p with
    | Except.error e => Except.error e
    | Except.ok _ =>
      match getDeviceIds w p kMaxDeviceIds deviceType with
      | Except.error e => Except.error e
      | Except.ok deviceIds =>
        match showInfoDevicesLoop w deviceIds with
        | Except.error e => Except.error e
        | Except.ok _ => showInfoLoop w deviceType ps

/-- Model of showInfo (src/main.cpp lines 161 to 178). -/
def showInfo (w : World) (platformIds : List Nat) (deviceType : Int) : Except OclcExc Unit :=
  showInfoLoop w deviceType platformIds

/-- Model of the one-file readSource (src/main.cpp lines 79 to 85): throw
when the stream does not open, otherwise return the content. -/
def readSourceFile (w : World) (filename : String) : Except OclcExc String :=
  match w.fileContent filename with
  | some s => Except.ok s
  | none => Except.error (OclcExc.runtimeError ("Failed to read file: " ++ filename))

/-- Model of the vector readSource (src/main.cpp lines 93 to 101): read the
files in ascending index order; the first failure throws. -/
def readSourceFiles (w : World) : List String → Except OclcExc (List String)
  | [] => Except.ok []
  | f :: fs =>
    match readSourceFile w f with
    | Except.error e => Except.error e
    | Except.ok s =>
      match readSourceFiles w fs with
      | Except.error e => Except.error e
      | Except.ok ss => Except.ok (s :: ss)

/-- Switch over the clBuildProgram status (src/main.cpp lines 259 to 275).
In the CL_BUILD_PROGRAM_FAILURE arm the bounded build log is fetched (the
status of that fetch is not checked by the source) and attached to the
message; the CL_INVALID_BUILD_OPTIONS arm and the default arm both run
OCLC_CHECK_ERROR. -/
def buildSwitch (w : World) : Except OclcExc Unit :=
  if w.buildErr = CL_SUCCESS then Except.ok ()
  else if w.buildErr = CL_BUILD_PROGRAM_FAILURE then
    checkErrorWithMsg w.table w.buildErr w.buildLog
  else if w.buildErr = CL_INVALID_BUILD_OPTIONS then
    checkError w.table w.buildErr
  else
    checkError w.table w.buildErr

/-- Artifact file name for device index i (src/main.cpp lines 302 to 305):
the caller supplied output name, or basename plus ".bin" when none was
given; when more than one device participates the zero based device index
is appended after a dot. -/
def artifactFilename (output basename : String) (nDevice i : Nat) : String :=
  let filename := if output = "" then basename ++ ".bin" else output
  if nDevice > 1 then filename ++ "." ++ natToString i else filename

/-- Persistence loop body over the remaining device indices (src/main.cpp
lines 298 to 312).  A device with binary size 0 has bins[i] == nullptr and
is skipped; a file that does not open is logged to stderr and the loop
continues; the pair collects (written files with their sizes, stderr lines)
in loop order. -/
def writeLoopGo (w : World) (output basename : String) (nDevice : Nat) :
    List Nat → List (String × Nat) × List String
  | [] => ([], [])
  | i :: rest =>
    let next := writeLoopGo w output basename nDevice rest
    if w.binSize i = 0 then next
    else
      let filename := artifactFilename output basename nDevice i
      if w.openOk filename then ((filename, w.binSize i) :: next.1, next.2)
      else (next.1, ("Failed to open: " ++ filename) :: next.2)

/-- Persistence loop over device indices 0 to nDevice - 1. -/
def writeLoop (w : World) (output basename : String) (nDevice : Nat) :
    List (String × Nat) × List String :=
  writeLoopGo w output basename nDevice (List.range nDevice)

/-- Parsed command line options of the compiler tool (src/main.cpp lines
191 to 205) together with the positional arguments. -/
structure Options where
  all : Bool
  list : Bool
  deviceType : String
  output : String
  buildOption : String
  platform : Nat
  device : Nat
  fsyntaxOnly : Bool
  help : Bool
  args : List String
deriving DecidableEq, Repr

/-- Observable outcome of one compiler run: exit code, artifact files
written (name and byte count), stderr diagnostic lines. -/
structure MainResult where
  exitCode : Int
  filesWritten : List (String × Nat)
  errLog : List String
deriving DecidableEq, Repr

/-- Body of main (src/main.cpp lines 190 to 312) inside the try block;
exceptions propagate as Except errors.  Indexing platformIds[pi] is the
unchecked vector access of line 231, modelled with getD under the caller
contract that pi is in bounds.  The device handles passed to clCreateContext
and clBuildProgram are the ones at accessedDeviceIndices (base di, count
deviceIds.size()); reads past the end are modelled with getD 0. -/
def mainBody (op : Options) (w : World) : Except OclcExc MainResult :=
  if op.help then Except.ok ⟨0, [], []⟩ else
  match getPlatformIds w kNDefaultPlatformEntry with
  | Except.error e => Except.error e
  | Except.ok platformIds =>
  if op.list then
    match deviceTypeAt op.deviceType with
    | Except.error e => Except.error e
    | Except.ok dt =>
      match showInfo w platformIds dt with
      | Except.error e => Except.error e
      | Except.ok _ => Except.ok ⟨0, [], []⟩
  else
  if op.args.length < 1 then
    Except.ok ⟨1, [], ["Please specify only one or more source file"]⟩
  else
  match deviceTypeAt op.deviceType with
  | Except.error e => Except.error e
  | Except.ok dt =>
  match getDeviceIds w (platformIds.getD op.platform 0) kNDefaultDeviceEntry dt with
  | Except.error e => Except.error e
  | Except.ok deviceIds =>
  match checkError w.table (w.contextErr
      ((accessedDeviceIndices deviceIds.length op.device).map (fun j => deviceIds.getD j 0))) with
  | Except.error e => Except.error e
  | Except.ok _ =>
  match readSourceFiles w op.args with
  | Except.error e => Except.error e
  | Except.ok _kernelSources =>
  match checkError w.table w.createProgramErr with
  | Except.error e => Except.error e
  | Except.ok _ =>
  match buildSwitch w with
  | Except.error e => Except.error e
  | Except.ok _ =>
  if op.fsyntaxOnly then Except.ok ⟨0, [], []⟩ else
  match checkError w.table w.numDevicesErr with
  | Except.error e => Except.error e
  | Except.ok _ =>
  match checkError w.table w.binSizesErr with
  | Except.error e => Except.error e
  | Except.ok _ =>
  match checkError w.table w.binariesErr with
  | Except.error e => Except.error e
  | Except.ok _ =>
    let basename := removeSuffix (op.args.getD 0 "")
    let wl := writeLoop w op.output basename w.progNumDevices
    Except.ok ⟨0, wl.1, wl.2⟩

/-- Whole program observable behavior: the catch block (src/main.cpp lines
313 to 316) prints what() to stderr and exits with EXIT_FAILURE. -/
def mainModel (op : Options) (w : World) : MainResult :=
  match mainBody op w with
  | Except.ok r => r
  | Except.error e => ⟨1, [], [excMessage e]⟩

/-! Embedded pieces of the execution verifier (src/test/main.cpp). -/

/-- Element count N of the verifier (src/test/main.cpp line 169). -/
def kTestN : Nat := 65536

/-- Tolerance 1.0e-5 of the comparison on line 252, as an exact rational. -/
def kTol : ℚ := 1 / 100000

/-- Model of setKernelArgsImpl (src/test/main.cpp lines 119 to 140): bind
one argument at the current index; on success continue with the next index,
otherwise return that status.  Statuses are cl_int values (the cl_uint
round trip of the source preserves them); `bind` is the response of
clSetKernelArg at (index, argument).  The second component records the
indices at which a binding was attempted, in call order. -/
def setKernelArgsImpl (bind : Nat → α → Int) : Nat → α → List α → Int × List Nat
  | idx, last, [] => (bind idx last, [idx])
  | idx, first, nxt :: rest =>
    let e := bind idx first
    if e = CL_SUCCESS then
      let p := setKernelArgsImpl bind (idx + 1) nxt rest
      (p.1, idx :: p.2)
    else (e, [idx])

/-- Model of setKernelArgs (src/test/main.cpp lines 149 to 154): start the
binding chain at index 0.  The template takes at least one argument. -/
def setKernelArgs (bind : Nat → α → Int) (first : α) (rest : List α) : Int × List Nat :=
  setKernelArgsImpl bind 0 first rest

/-- Violation predicate of the comparison on src/test/main.cpp line 252:
std::abs(hostX[i] + hostY[i] - hostZ[i]) > 1.0e-5, with the float values
idealized as rationals. -/
def violationAt (x y z : Nat → ℚ) (i : Nat) : Prop := |x i + y i - z i| > kTol

instance (x y z : Nat → ℚ) (i : Nat) : Decidable (violationAt x y z i) := by
  unfold violationAt
  infer_instance

/-- Validation loop of src/test/main.cpp lines 251 to 256, scanning indices
i, i+1, ..., i+fuel-1 in increasing order and returning the first index at
which the comparison fails, if any. -/
def verifyFrom (x y z : Nat → ℚ) : Nat → Nat → Option Nat
  | _, 0 => none
  | i, fuel + 1 =>
    if violationAt x y z i then some i
    else verifyFrom x y z (i + 1) fuel

/-- Observable tail of the verifier run (src/test/main.cpp lines 251 to
259): exit code, the stdout pass line, and the failing index reported to
stderr, if any. -/
def verifierOutcome (x y z : Nat → ℚ) : Int × Option String × Option Nat :=
  match verifyFrom x y z 0 kTestN with
  | some i => (1, none, some i)
  | none => (0, some "Test PASSED", none)

/-! Concrete transcripts and option sets used to evaluate the model. -/

/-- Transcript in which every runtime call succeeds: one platform, one
device, every source file readable, a 4 byte binary per device, every
output file writable. -/
def baseWorld : World where
  table := kErrorMessageMap
  platformErr := 0
  nPlatform := 1
  platformIdAt := fun k => 100 + k
  platformNameErr := fun _ => 0
  platformVersionErr := fun _ => 0
  deviceNameErr := fun _ => 0
  deviceVersionErr := fun _ => 0
  deviceErr := fun _ _ => 0
  nDevice := fun _ _ => 1
  deviceIdAt := fun _ _ k => 200 + k
  fileContent := fun _ => some "kernel source text"
  contextErr := fun _ => 0
  createProgramErr := 0
  buildErr := 0
  buildLog := ""
  numDevicesErr := 0
  progNumDevices := 1
  binSizesErr := 0
  binSize := fun _ => 4
  binariesErr := 0
  openOk := fun _ => true

/-- Default command line: one source file kernel.cl, no flags set. -/
def opBase : Options where
  all := false
  list := false
  deviceType := "default"
  output := ""
  buildOption := ""
  platform := 0
  device := 0
  fsyntaxOnly := false
  help := false
  args := ["kernel.cl"]

/-- Transcript like baseWorld in which every output file fails to open. -/
def worldAllWritesFail : World :=
  { baseWorld with binSize := fun _ => 1, openOk := fun _ => false }

/-- Transcript like baseWorld in which the runtime reports two available
platforms. -/
def worldTwoPlatforms : World :=
  { baseWorld with nPlatform := 2 }

/-! Supporting lemmas. -/

theorem toNat_digitChar : ∀ m : Nat, m < 10 → (Char.ofNat (48 + m)).toNat = 48 + m := by
  decide

theorem foldl_decDigitsGo : ∀ (fuel n : Nat), n ≤ fuel → ∀ (acc : List Char) (a : Nat),
    (decDigitsGo fuel n acc).foldl (fun a c => a * 10 + (c.toNat - 48)) a
      = acc.foldl (fun a c => a * 10 + (c.toNat - 48)) (a * 10 ^ decLen n + n) := by
  intro fuel
  induction fuel with
  | zero =>
    intro n hn acc a
    have h0 : n = 0 := Nat.le_zero.mp hn
    subst h0
    rw [decDigitsGo, decLen]
    simp only [List.foldl_cons]
    have hd : (Char.ofNat (48 + 0 % 10)).toNat = 48 + 0 % 10 :=
      toNat_digitChar _ (by omega)
    rw [hd]
    norm_num
  | succ f ih =>
    intro n hn acc a
    by_cases h : n < 10
    · rw [decDigitsGo, decLen]
      simp only [h, if_true, dite_true, List.foldl_cons]
      have hd : (Char.ofNat (48 + n % 10)).toNat = 48 + n % 10 :=
        toNat_digitChar _ (Nat.mod_lt _ (by omega))
      rw [hd]
      have hm : n % 10 = n := Nat.mod_eq_of_lt h
      rw [hm]
      norm_num
    · rw [decDigitsGo, decLen]
      simp only [h, if_false, dite_false]
      have hf : n / 10 ≤ f := by
        have := Nat.div_lt_self (by omega : 0 < n) (by omega : 1 < 10)
        omega
      rw [ih (n / 10) hf]
      simp only [List.foldl_cons]
      have hd : (Char.ofNat (48 + n % 10)).toNat = 48 + n % 10 :=
        toNat_digitChar _ (Nat.mod_lt _ (by omega))
      rw [hd]
      have hn2 : (a * 10 ^ decLen (n / 10) + n / 10) * 10 + (48 + n % 10 - 48)
          = a * 10 ^ (decLen (n / 10) + 1) + n := by
        have : n / 10 * 10 + n % 10 = n := Nat.div_add_mod n 10 ▸ by ring_nf; omega
        ring_nf
        omega
      rw [hn2]

theorem decVal_natToString (n : Nat) : decVal (natToString n).data = n := by
  have h := foldl_decDigitsGo n n (Nat.le_refl n) [] 0
  simp only [List.foldl_nil, Nat.zero_mul, Nat.zero_add] at h
  simpa [natToString, decVal] using h

theorem natToString_injective : Function.Injective natToString := by
  intro m n h
  have h2 := congrArg (fun s => decVal s.data) h
  simpa [decVal_natToString] using h2

theorem findLastOf_eq_none {l : List Char} {c : Char} :
    findLastOf l c = none ↔ c ∉ l := by
  induction l with
  | nil => simp [findLastOf]
  | cons x xs ih =>
    rw [findLastOf]
    cases hx : findLastOf xs c with
    | some p => simp only [hx] at ih; simp [ih.symm, hx]
    | none =>
      rw [hx] at ih
      by_cases hxc : x = c
      · simp [hxc]
      · have hcs : c ∉ xs := ih.mp rfl
        simp only [hxc, if_false]
        simp [List.mem_cons, hcs]
        exact fun hc => hxc hc.symm

theorem findLastOf_spec {l : List Char} {c : Char} {p : Nat} :
    findLastOf l c = some p →
      ∃ hp : p < l.length, l.get ⟨p, hp⟩ = c ∧
        ∀ q (hq : q < l.length), p < q → l.get ⟨q, hq⟩ ≠ c := by
  induction l generalizing p with
  | nil => intro h; simp [findLastOf] at h
  | cons x xs ih =>
    intro h
    rw [findLastOf] at h
    cases hx : findLastOf xs c with
    | some r =>
      rw [hx] at h
      obtain ⟨hr, hget, hafter⟩ := ih hx
      have hp : p = r + 1 := by simpa using h.symm
      subst hp
      refine ⟨by simpa using Nat.succ_lt_succ hr, by simpa using hget, ?_⟩
      intro q hq hlt
      cases q with
      | zero => omega
      | succ q0 =>
        have hq0 : q0 < xs.length := by simpa using hq
        have : r < q0 := by omega
        simpa using hafter q0 hq0 this
    | none =>
      rw [hx] at h
      by_cases hxc : x = c
      · simp only [hxc, if_true] at h
        have hp : p = 0 := by simpa using h.symm
        subst hp
        refine ⟨by simp, by simpa using hxc, ?_⟩
        intro q hq hlt
        cases q with
        | zero => omega
        | succ q0 =>
          have hq0 : q0 < xs.length := by simpa using hq
          have hnone := findLastOf_eq_none.mp hx
          intro hc
          exact hnone (by
            have hg : xs.get ⟨q0, hq0⟩ = c := by simpa using hc
            exact hg ▸ xs.get_mem q0 hq0)
      · simp [hxc] at h

theorem checkError_success (table : List (Int × String)) :
    checkError table CL_SUCCESS = Except.ok () := rfl

theorem checkError_ne_success {table : List (Int × String)} {c : Int}
    (h : c ≠ CL_SUCCESS) : ∃ e, checkError table c = Except.error e := by
  unfold checkError
  rw [if_neg h]
  cases mapAt table c with
  | none => exact ⟨_, rfl⟩
  | some m => exact ⟨_, rfl⟩

theorem buildSwitch_success {w : World} (h : w.buildErr = CL_SUCCESS) :
    buildSwitch w = Except.ok () := by
  unfold buildSwitch
  rw [h]
  rfl

theorem vectorResize_length (xs : List Nat) (n : Nat) :
    (vectorResize xs n).length = n := by
  unfold vectorResize
  split
  · simp
    omega
  · simp
    omega

theorem readSourceFiles_ok (w : World) (h : ∀ f, (w.fileContent f).isSome) :
    ∀ l, ∃ ss, readSourceFiles w l = Except.ok ss := by
  intro l
  induction l with
  | nil => exact ⟨[], rfl⟩
  | cons f fs ih =>
    obtain ⟨ss, hss⟩ := ih
    cases hc : w.fileContent f with
    | none =>
      have hf := h f
      rw [hc] at hf
      simp at hf
    | some s =>
      refine ⟨s :: ss, ?_⟩
      simp only [readSourceFiles, readSourceFile, hc, hss]

theorem writeLoopGo_eq (w : World) (output basename : String) (nDevice : Nat) :
    ∀ l : List Nat,
      writeLoopGo w output basename nDevice l =
        ((l.filter (fun i => w.binSize i != 0 &&
            w.openOk (artifactFilename output basename nDevice i))).map
          (fun i => (artifactFilename output basename nDevice i, w.binSize i)),
         (l.filter (fun i => w.binSize i != 0 &&
            !w.openOk (artifactFilename output basename nDevice i))).map
          (fun i => "Failed to open: " ++ artifactFilename output basename nDevice i)) := by
  intro l
  induction l with
  | nil => rfl
  | cons i rest ih =>
    rw [writeLoopGo, ih]
    by_cases hz : w.binSize i = 0
    · simp [hz, List.filter_cons]
    · by_cases ho : w.openOk (artifactFilename output basename nDevice i)
      · simp [hz, ho, List.filter_cons]
      · simp [hz, ho, List.filter_cons]

theorem mem_le_tableKeyBound {table : List (Int × String)} {p : Int × String}
    (hp : p ∈ table) : p.1.natAbs ≤ tableKeyBound table := by
  induction table with
  | nil => simp at hp
  | cons q qs ih =>
    have hstep : tableKeyBound (q :: qs) = max q.1.natAbs (tableKeyBound qs) := rfl
    rw [hstep]
    rcases List.mem_cons.mp hp with h | h
    · subst h
      exact Nat.le_max_left _ _
    · exact le_trans (ih h) (Nat.le_max_right _ _)

theorem exists_missing_code (table : List (Int × String)) :
    ∃ errCode : Int, errCode ≠ CL_SUCCESS ∧ mapAt table errCode = none := by
  refine ⟨-((tableKeyBound table : Int) + 1), ?_, ?_⟩
  · intro h
    unfold CL_SUCCESS at h
    omega
  · unfold mapAt
    cases hf : table.find? (fun p => p.1 == -((tableKeyBound table : Int) + 1)) with
    | none => rfl
    | some p =>
      exfalso
      have hpred := List.find?_some hf
      have hmem := List.mem_of_find?_eq_some hf
      have heq : p.1 = -((tableKeyBound table : Int) + 1) := by
        exact eq_of_beq hpred
      have hle := mem_le_tableKeyBound hmem
      rw [heq] at hle
      omega

theorem accessInBounds_iff (count di : Nat) :
    accessInBounds count di ↔ (count = 0 ∨ di = 0) := by
  unfold accessInBounds accessedDeviceIndices
  constructor
  · intro h
    by_contra hc
    push_neg at hc
    obtain ⟨h1, h2⟩ := hc
    have hm : di + (count - 1) ∈ (List.range count).map (fun k => di + k) :=
      List.mem_map.mpr ⟨count - 1, List.mem_range.mpr (by omega), rfl⟩
    have := h _ hm
    omega
  · intro h j hj
    rcases List.mem_map.mp hj with ⟨k, hk, rfl⟩
    rcases h with h0 | h0
    · subst h0
      simp at hk
    · subst h0
      simpa using List.mem_range.mp hk

theorem violationAt_iff (x y z : Nat → ℚ) (i : Nat) :
    violationAt x y z i ↔ ¬ (|z i - (x i + y i)| ≤ kTol) := by
  unfold violationAt
  rw [abs_sub_comm (x i + y i) (z i)]
  exact not_le.symm

theorem verifyFrom_none_iff (x y z : Nat → ℚ) : ∀ (fuel s : Nat),
    verifyFrom x y z s fuel = none ↔
      ∀ j, s ≤ j → j < s + fuel → ¬ violationAt x y z j := by
  intro fuel
  induction fuel with
  | zero =>
    intro s
    constructor
    · intro _ j h1 h2
      omega
    · intro _
      rfl
  | succ f ih =>
    intro s
    rw [verifyFrom]
    by_cases hv : violationAt x y z s
    · rw [if_pos hv]
      constructor
      · intro h
        simp at h
      · intro h
        exact absurd hv (h s (le_refl s) (by omega))
    · rw [if_neg hv]
      rw [ih (s + 1)]
      constructor
      · intro h j h1 h2
        rcases eq_or_lt_of_le h1 with he | hlt
        · exact he ▸ hv
        · exact h j (by omega) (by omega)
      · intro h j h1 h2
        exact h j (by omega) (by omega)

theorem verifyFrom_some_iff (x y z : Nat → ℚ) : ∀ (fuel s i : Nat),
    verifyFrom x y z s fuel = some i ↔
      (s ≤ i ∧ i < s + fuel ∧ violationAt x y z i ∧
        ∀ j, s ≤ j → j < i → ¬ violationAt x y z j) := by
  intro fuel
  induction fuel with
  | zero =>
    intro s i
    constructor
    · intro h
      simp [verifyFrom] at h
    · rintro ⟨h1, h2, _, _⟩
      omega
  | succ f ih =>
    intro s i
    rw [verifyFrom]
    by_cases hv : violationAt x y z s
    · rw [if_pos hv]
      constructor
      · intro h
        have hsi : s = i := Option.some.inj h
        subst hsi
        exact ⟨le_refl s, by omega, hv, fun j h1 h2 => by omega⟩
      · rintro ⟨h1, h2, h3, h4⟩
        have hsi : s = i := by
          by_contra hne
          exact h4 s (le_refl s) (by omega) hv
        rw [hsi]
    · rw [if_neg hv]
      rw [ih (s + 1)]
      constructor
      · rintro ⟨h1, h2, h3, h4⟩
        refine ⟨by omega, by omega, h3, fun j hj1 hj2 => ?_⟩
        rcases eq_or_lt_of_le hj1 with he | hlt
        · exact he ▸ hv
        · exact h4 j (by omega) hj2
      · rintro ⟨h1, h2, h3, h4⟩
        have hsi : s ≠ i := fun he => hv (he ▸ h3)
        exact ⟨by omega, by omega, h3, fun j hj1 hj2 => h4 j (by omega) hj2⟩

theorem range_map_add_shift (idx n : Nat) :
    (List.range (n + 1)).map (fun k => idx + k)
      = idx :: (List.range n).map (fun k => (idx + 1) + k) := by
  rw [List.range_succ_eq_map]
  simp only [List.map_cons, Nat.add_zero, List.map_map]
  congr 1
  have hfun : ((fun k => idx + k) ∘ Nat.succ) = (fun k => (idx + 1) + k) := by
    funext k
    simp [Function.comp]
    omega
  rw [hfun]

theorem setKernelArgsImpl_ok_iff {α : Type} (bind : Nat → α → Int) :
    ∀ (rest : List α) (first : α) (idx : Nat),
      (setKernelArgsImpl bind idx first rest).1 = CL_SUCCESS ↔
        ∀ j (hj : j < (first :: rest).length),
          bind (idx + j) ((first :: rest).get ⟨j, hj⟩) = CL_SUCCESS := by
  intro rest
  induction rest with
  | nil =>
    intro first idx
    simp only [setKernelArgsImpl]
    constructor
    · intro h j hj
      have hj0 : j = 0 := by
        simp at hj
        omega
      subst hj0
      simpa using h
    · intro h
      simpa using h 0 (by simp)
  | cons nxt rest ih =>
    intro first idx
    simp only [setKernelArgsImpl]
    by_cases h0 : bind idx first = CL_SUCCESS
    · rw [if_pos h0]
      constructor
      · intro h j hj
        match j with
        | 0 => simpa using h0
        | j + 1 =>
          have hj2 : j < (nxt :: rest).length := by
            simp at hj ⊢
            omega
          have := (ih nxt (idx + 1)).mp h j hj2
          rw [show idx + (j + 1) = (idx + 1) + j by omega]
          simpa using this
      · intro h
        apply (ih nxt (idx + 1)).mpr
        intro j hj
        have hj2 : j + 1 < (first :: nxt :: rest).length := by
          simp at hj ⊢
          omega
        have := h (j + 1) hj2
        rw [show (idx + 1) + j = idx + (j + 1) by omega]
        simpa using this
    · rw [if_neg h0]
      constructor
      · intro h
        exact absurd h h0
      · intro h
        exact absurd (by simpa using h 0 (by simp)) h0

theorem setKernelArgsImpl_all_ok {α : Type} (bind : Nat → α → Int) :
    ∀ (rest : List α) (first : α) (idx : Nat),
      (∀ j (hj : j < (first :: rest).length),
          bind (idx + j) ((first :: rest).get ⟨j, hj⟩) = CL_SUCCESS) →
      setKernelArgsImpl bind idx first rest
        = (CL_SUCCESS, (List.range (rest.length + 1)).map (fun k => idx + k)) := by
  intro rest
  induction rest with
  | nil =>
    intro first idx h
    have h0 := h 0 (by simp)
    simp only [List.get] at h0
    rw [Nat.add_zero] at h0
    simp only [setKernelArgsImpl, List.length_nil]
    rw [h0]
    simp [List.range_succ_eq_map]
  | cons nxt rest ih =>
    intro first idx h
    have h0 : bind idx first = CL_SUCCESS := by
      simpa using h 0 (by simp)
    simp only [setKernelArgsImpl]
    rw [if_pos h0]
    have hrec := ih nxt (idx + 1) (by
      intro j hj
      have hj2 : j + 1 < (first :: nxt :: rest).length := by
        simp at hj ⊢
        omega
      have := h (j + 1) hj2
      rw [show (idx + 1) + j = idx + (j + 1) by omega]
      simpa using this)
    rw [hrec]
    rw [show (nxt :: rest).length = rest.length + 1 by simp]
    rw [range_map_add_shift idx (rest.length + 1)]

theorem setKernelArgsImpl_first_fail {α : Type} (bind : Nat → α → Int) :
    ∀ (rest : List α) (first : α) (idx j : Nat) (hj : j < (first :: rest).length),
      (∀ k (hk : k < (first :: rest).length), k < j →
        bind (idx + k) ((first :: rest).get ⟨k, hk⟩) = CL_SUCCESS) →
      bind (idx + j) ((first :: rest).get ⟨j, hj⟩) ≠ CL_SUCCESS →
      setKernelArgsImpl bind idx first rest
        = (bind (idx + j) ((first :: rest).get ⟨j, hj⟩),
           (List.range (j + 1)).map (fun k => idx + k)) := by
  intro rest
  induction rest with
  | nil =>
    intro first idx j hj hbefore hfail
    have hj0 : j = 0 := by
      simp at hj
      omega
    subst hj0
    simp only [setKernelArgsImpl]
    simp [List.range_succ_eq_map]
  | cons nxt rest ih =>
    intro first idx j hj hbefore hfail
    simp only [setKernelArgsImpl]
    cases j with
    | zero =>
      have hf : bind idx first ≠ CL_SUCCESS := by
        simpa using hfail
      rw [if_neg hf]
      simp [List.range_succ_eq_map]
    | succ j0 =>
      have h0 : bind idx first = CL_SUCCESS := by
        simpa using hbefore 0 (by simp) (by omega)
      rw [if_pos h0]
      have hj2 : j0 < (nxt :: rest).length := by
        simp at hj ⊢
        omega
      have hrec := ih nxt (idx + 1) j0 hj2
        (by
          intro k hk hklt
          have hk2 : k + 1 < (first :: nxt :: rest).length := by
            simp at hk ⊢
            omega
          have := hbefore (k + 1) hk2 (by omega)
          rw [show (idx + 1) + k = idx + (k + 1) by omega]
          simpa using this)
        (by
          rw [show (idx + 1) + j0 = idx + (j0 + 1) by omega]
          simpa using hfail)
      rw [hrec]
      rw [range_map_add_shift idx (j0 + 1)]
      rw [show (idx + 1) + j0 = idx + (j0 + 1) by omega]
      simp

/-! Claim theorems. -/

/-- C1: at a runtime status code absent from the code to message table
(here the concrete code -9999) the error resolution path of OCLC_CHECK_ERROR
does not produce a generic unknown runtime error message: the lookup
kErrorMessageMap.at(errCode) itself goes out of range, so std::out_of_range
escapes in place of the formatted std::runtime_error the macro builds for
known codes. -/
theorem checkError_missing_code_out_of_range :
    mapAt kErrorMessageMap (-9999) = none ∧
    checkError kErrorMessageMap (-9999) = Except.error OclcExc.outOfRange ∧
    ∀ msg, checkError kErrorMessageMap (-9999) ≠ Except.error (OclcExc.runtimeError msg) := by
  refine ⟨rfl, rfl, ?_⟩
  intro msg h
  have h2 : OclcExc.outOfRange = OclcExc.runtimeError msg := by
    have h3 : checkError kErrorMessageMap (-9999) = Except.error OclcExc.outOfRange := rfl
    rw [h3] at h
    exact Except.error.inj h
  exact OclcExc.noConfusion h2

/-- C2: with two enumerated devices and device index 1, which satisfies the
claimed precondition di < count, the clCreateContext and clBuildProgram
calls pass the address of deviceIds[1] together with the count
deviceIds.size() = 2, so the runtime reads the handles at indices 1 and 2,
and index 2 lies outside the enumerated sequence; in general the accesses
stay inside the sequence only when di = 0 or the sequence is empty, so the
context does not span the enumerated device set for any di > 0. -/
theorem createContext_reads_past_device_list :
    accessedDeviceIndices 2 1 = [1, 2] ∧
    ¬ accessInBounds 2 1 ∧
    accessInBounds 2 0 ∧
    ∀ count di, accessInBounds count di ↔ (count = 0 ∨ di = 0) := by
  refine ⟨by decide, by decide, by decide, accessInBounds_iff⟩

/-- C4 counterexample: with two participating devices and default naming,
the artifact file of device 0 for first source kernel.cl is named
kernel.bin.0, so the zero based device index follows the .bin extension; the
name kernel.0.bin required by the claim is not produced. -/
theorem artifact_name_index_after_bin :
    artifactFilename "" (removeSuffix "kernel.cl") 2 0 = "kernel.bin.0" ∧
    artifactFilename "" (removeSuffix "kernel.cl") 2 0 ≠ "kernel.0.bin" := by
  exact ⟨rfl, by decide⟩

/-- C4 amended: for more than one participating device and default naming,
the artifact file of device i is basename ++ ".bin" ++ "." ++ i, that is
the dot separated zero based device index is appended after the .bin
extension (not before it), and the names of distinct device indices are
pairwise distinct. -/
theorem artifact_names_multi_device (basename : String) (nDevice i j : Nat)
    (h : nDevice > 1) :
    artifactFilename "" basename nDevice i
        = basename ++ ".bin" ++ "." ++ natToString i ∧
    (i ≠ j → artifactFilename "" basename nDevice i
        ≠ artifactFilename "" basename nDevice j) := by
  have hname : ∀ k, artifactFilename "" basename nDevice k
      = basename ++ ".bin" ++ "." ++ natToString k := by
    intro k
    unfold artifactFilename
    simp [h]
  refine ⟨hname i, fun hij heq => ?_⟩
  rw [hname i, hname j] at heq
  have hd := congrArg String.data heq
  simp only [String.data_append, List.append_assoc] at hd
  have h1 := List.append_cancel_left hd
  have h2 := List.append_cancel_left h1
  have h3 := List.append_cancel_left h2
  exact hij (natToString_injective (String.ext h3))

/-- C4 witness: the amended naming statement at basename kernel with two
devices and indices 0 and 1. -/
theorem artifact_names_multi_device_witness :
    artifactFilename "" "kernel" 2 0 = "kernel" ++ ".bin" ++ "." ++ natToString 0 ∧
    artifactFilename "" "kernel" 2 0 ≠ artifactFilename "" "kernel" 2 1 :=
  ⟨(artifact_names_multi_device "kernel" 2 0 1 (by decide)).1,
   (artifact_names_multi_device "kernel" 2 0 1 (by decide)).2 (by decide)⟩

/-- C6 counterexample: when the runtime reports two available platforms to
a request with room for one entry, the vector is resized to the reported
count, so getPlatformIds returns a sequence of length 2 with maxEntries 1:
the claimed bound length at most maxEntries fails (the second entry is a
value initialized null handle). -/
theorem listPlatforms_exceeds_max_entries :
    getPlatformIds worldTwoPlatforms 1 = Except.ok [100, 0] ∧
    ([100, 0] : List Nat).length = 2 ∧
    ¬ (([100, 0] : List Nat).length ≤ 1) := by
  exact ⟨rfl, rfl, by decide⟩

/-- C6 amended: getPlatformIds returns a sequence whose length equals the
runtime reported platform count exactly (at most maxEntries only when the
runtime reports at most maxEntries), and it fails exactly when the
underlying discovery status is not CL_SUCCESS; getDeviceIds behaves the
same way with the runtime reported device count. -/
theorem enumeration_length_eq_reported (w : World) (n : Nat) :
    (w.platformErr = CL_SUCCESS →
      ∃ l, getPlatformIds w n = Except.ok l ∧ l.length = w.nPlatform) ∧
    (w.platformErr ≠ CL_SUCCESS →
      ∃ e, getPlatformIds w n = Except.error e) ∧
    (∀ pid t, w.deviceErr pid t = CL_SUCCESS →
      ∃ l, getDeviceIds w pid n t = Except.ok l ∧ l.length = w.nDevice pid t) ∧
    (∀ pid t, w.deviceErr pid t ≠ CL_SUCCESS →
      ∃ e, getDeviceIds w pid n t = Except.error e) := by
  refine ⟨?_, ?_, ?_, ?_⟩
  · intro h
    refine ⟨vectorResize ((List.range n).map w.platformIdAt) w.nPlatform, ?_,
      vectorResize_length _ _⟩
    unfold getPlatformIds
    rw [h, checkError_success]
  · intro h
    obtain ⟨e, he⟩ := @checkError_ne_success w.table _ h
    exact ⟨e, by unfold getPlatformIds; rw [he]⟩
  · intro pid t h
    refine ⟨vectorResize ((List.range n).map (w.deviceIdAt pid t)) (w.nDevice pid t), ?_,
      vectorResize_length _ _⟩
    unfold getDeviceIds
    rw [h, checkError_success]
  · intro pid t h
    obtain ⟨e, he⟩ := @checkError_ne_success w.table _ h
    exact ⟨e, by unfold getDeviceIds; rw [he]⟩

/-- C6 witness: the amended statement evaluated on the all success
transcript with the default entry bound. -/
theorem enumeration_length_eq_reported_witness :
    ∃ l, getPlatformIds baseWorld 16 = Except.ok l ∧ l.length = baseWorld.nPlatform :=
  (enumeration_length_eq_reported baseWorld 16).1 rfl

/-- C10: a first source filename without a dot passes through removeSuffix
unchanged, so the default artifact name is the whole filename plus .bin;
a filename containing a dot loses exactly the piece from its last dot to
the end (the character at the cut is a dot and no later character is). -/
theorem removeSuffix_default_basename (s : String) :
    ('.' ∉ s.data → removeSuffix s = s ∧
      artifactFilename "" (removeSuffix s) 1 0 = s ++ ".bin") ∧
    ('.' ∈ s.data → ∃ p, ∃ hp : p < s.data.length,
      s.data.get ⟨p, hp⟩ = '.' ∧
      (removeSuffix s).data = s.data.take p ∧
      ∀ q (hq : q < s.data.length), p < q → s.data.get ⟨q, hq⟩ ≠ '.') := by
  constructor
  · intro h
    have hnone : findLastOf s.data '.' = none := findLastOf_eq_none.mpr h
    have hid : removeSuffix s = s := by
      unfold removeSuffix
      rw [hnone]
    refine ⟨hid, ?_⟩
    rw [hid]
    unfold artifactFilename
    simp
  · intro h
    cases hf : findLastOf s.data '.' with
    | none => exact absurd (findLastOf_eq_none.mp hf) (by simpa using h)
    | some p =>
      obtain ⟨hp, hdot, hafter⟩ := findLastOf_spec hf
      refine ⟨p, hp, hdot, ?_, hafter⟩
      unfold removeSuffix
      rw [hf]

/-- C10 witness: the dotless name kernel keeps its name and gets .bin; the
name a.b.c is cut at its last dot. -/
theorem removeSuffix_default_basename_witness :
    (removeSuffix "kernel" = "kernel" ∧
      artifactFilename "" (removeSuffix "kernel") 1 0 = "kernel" ++ ".bin") ∧
    (∃ p, ∃ hp : p < "a.b.c".data.length,
      "a.b.c".data.get ⟨p, hp⟩ = '.' ∧
      (removeSuffix "a.b.c").data = "a.b.c".data.take p ∧
      ∀ q (hq : q < "a.b.c".data.length), p < q → "a.b.c".data.get ⟨q, hq⟩ ≠ '.') :=
  ⟨(removeSuffix_default_basename "kernel").1 (by decide),
   (removeSuffix_default_basename "a.b.c").2 (by decide)⟩

/-- C5: over the fixed N = 65536 elements the verifier checks
|output[i] - (inputA[i] + inputB[i])| at most 1e-5 in increasing index
order; the run reports exit code 1 with index i exactly when i is the first
violating index, and it prints the literal Test PASSED line with exit code
0 exactly when no index violates. -/
theorem verifier_reports_first_violation (x y z : Nat → ℚ) :
    (∀ i, verifierOutcome x y z = (1, none, some i) ↔
      (i < kTestN ∧ ¬ (|z i - (x i + y i)| ≤ kTol) ∧
        ∀ j, j < i → |z j - (x j + y j)| ≤ kTol)) ∧
    (verifierOutcome x y z = (0, some "Test PASSED", none) ↔
      ∀ i, i < kTestN → |z i - (x i + y i)| ≤ kTol) := by
  constructor
  · intro i
    unfold verifierOutcome
    cases hv : verifyFrom x y z 0 kTestN with
    | some k =>
      have hk := (verifyFrom_some_iff x y z kTestN 0 k).mp hv
      constructor
      · intro h
        have hki : k = i := by
          simpa using h
        subst hki
        refine ⟨by omega, (violationAt_iff x y z k).mp hk.2.2.1, ?_⟩
        intro j hj
        have hnv := hk.2.2.2 j (by omega) hj
        by_contra hE
        exact hnv ((violationAt_iff x y z j).mpr hE)
      · rintro ⟨hi, hvi, hgood⟩
        have hki : k = i := by
          rcases lt_trichotomy k i with hlt | he | hgt
          · exfalso
            have hok := hgood k hlt
            exact ((violationAt_iff x y z k).mp hk.2.2.1) hok
          · exact he
          · exfalso
            have hnv := hk.2.2.2 i (by omega) hgt
            exact hnv ((violationAt_iff x y z i).mpr hvi)
        rw [hki]
    | none =>
      have hnone := (verifyFrom_none_iff x y z kTestN 0).mp hv
      constructor
      · intro h
        simp at h
      · rintro ⟨hi, hvi, _⟩
        exfalso
        exact (hnone i (by omega) (by omega)) ((violationAt_iff x y z i).mpr hvi)
  · unfold verifierOutcome
    cases hv : verifyFrom x y z 0 kTestN with
    | some k =>
      have hk := (verifyFrom_some_iff x y z kTestN 0 k).mp hv
      constructor
      · intro h
        simp at h
      · intro h
        exfalso
        have hok := h k (by omega)
        exact ((violationAt_iff x y z k).mp hk.2.2.1) hok
    | none =>
      have hnone := (verifyFrom_none_iff x y z kTestN 0).mp hv
      constructor
      · intro _ i hi
        by_contra hE
        exact (hnone i (by omega) (by omega)) ((violationAt_iff x y z i).mpr hE)
      · intro _
        rfl

/-- C5 witness: with an output buffer that matches the reference sum
exactly (all zeroes), the verifier passes with exit code 0 and the literal
pass line. -/
theorem verifier_reports_first_violation_witness :
    verifierOutcome (fun _ => 0) (fun _ => 0) (fun _ => 0)
      = (0, some "Test PASSED", none) := by
  apply (verifier_reports_first_violation (fun _ => 0) (fun _ => 0) (fun _ => 0)).2.mpr
  intro i _
  simp [kTol]

/-- C9: setKernelArgs binds its arguments at consecutive kernel argument
indices starting at 0 in the given order; it returns CL_SUCCESS exactly
when every binding succeeds (in which case every index was attempted), and
at the first rejected binding it returns that binding status, having
attempted exactly the indices up to and including the failing one. -/
theorem setKernelArgs_sequential_until_failure {α : Type} (bind : Nat → α → Int)
    (first : α) (rest : List α) :
    ((setKernelArgs bind first rest).1 = CL_SUCCESS ↔
      ∀ j (hj : j < (first :: rest).length),
        bind j ((first :: rest).get ⟨j, hj⟩) = CL_SUCCESS) ∧
    ((∀ j (hj : j < (first :: rest).length),
        bind j ((first :: rest).get ⟨j, hj⟩) = CL_SUCCESS) →
      setKernelArgs bind first rest = (CL_SUCCESS, List.range (first :: rest).length)) ∧
    (∀ j (hj : j < (first :: rest).length),
      (∀ k (hk : k < (first :: rest).length), k < j →
        bind k ((first :: rest).get ⟨k, hk⟩) = CL_SUCCESS) →
      bind j ((first :: rest).get ⟨j, hj⟩) ≠ CL_SUCCESS →
      setKernelArgs bind first rest
        = (bind j ((first :: rest).get ⟨j, hj⟩), List.range (j + 1))) := by
  have hzero : ∀ m : Nat, (List.range m).map (fun k => 0 + k) = List.range m := by
    intro m
    have hid : (fun k : Nat => 0 + k) = id := by
      funext k
      simp
    rw [hid, List.map_id]
  refine ⟨?_, ?_, ?_⟩
  · have h := setKernelArgsImpl_ok_iff bind rest first 0
    simp only [Nat.zero_add] at h
    exact h
  · intro hall
    have h := setKernelArgsImpl_all_ok bind rest first 0 (by
      intro j hj
      rw [Nat.zero_add]
      exact hall j hj)
    unfold setKernelArgs
    rw [h, hzero]
    simp
  · intro j hj hbefore hfail
    have h := setKernelArgsImpl_first_fail bind rest first 0 j hj
      (by
        intro k hk hkj
        rw [Nat.zero_add]
        exact hbefore k hk hkj)
      (by
        rw [Nat.zero_add]
        exact hfail)
    unfold setKernelArgs
    rw [h, hzero]
    rw [Nat.zero_add]

/-- C9 witness: three arguments where the runtime rejects the binding at
index 1 with status -50: the chain attempts indices 0 and 1 only and
returns -50. -/
theorem setKernelArgs_sequential_until_failure_witness :
    setKernelArgs (fun i (_ : Unit) => if i = 1 then (-50 : Int) else 0) () [(), ()]
      = (-50, [0, 1]) := by
  have h := (setKernelArgs_sequential_until_failure
      (fun i (_ : Unit) => if i = 1 then (-50 : Int) else 0) () [(), ()]).2.2 1
    (by decide)
    (by
      intro k hk hk1
      have hk0 : k = 0 := by omega
      subst hk0
      rfl)
    (by decide)
  exact h.trans (by decide)

/-- C3 counterexample: a run in which the only device binary fails to
persist (the output file does not open) still exits with code 0 and writes
no file at all, refuting the claim that the run reports success only when
at least one device file was written. -/
theorem extraction_all_writes_fail_exit_zero :
    mainModel opBase worldAllWritesFail
      = ⟨0, [], ["Failed to open: kernel.bin"]⟩ := rfl

/-- C3 amended: a failure to write one device artifact is non fatal, is
logged to stderr, and does not stop the loop: every device index below the
reported device count is still considered, the files actually written are
exactly the devices with a non zero binary whose file opened, and the run
exits with code 0 regardless of how many writes failed (even when all of
them failed). -/
theorem extraction_write_failures_nonfatal (op : Options) (w : World)
    (h1 : op.help = false) (h2 : op.list = false) (h3 : op.args ≠ [])
    (h4 : w.platformErr = CL_SUCCESS)
    (h5 : ∃ dt, deviceTypeAt op.deviceType = Except.ok dt)
    (h6 : ∀ p t, w.deviceErr p t = CL_SUCCESS)
    (h7 : ∀ ds, w.contextErr ds = CL_SUCCESS)
    (h8 : ∀ f, (w.fileContent f).isSome)
    (h9 : w.createProgramErr = CL_SUCCESS)
    (h10 : w.buildErr = CL_SUCCESS)
    (h11 : op.fsyntaxOnly = false)
    (h12 : w.numDevicesErr = CL_SUCCESS)
    (h13 : w.binSizesErr = CL_SUCCESS)
    (h14 : w.binariesErr = CL_SUCCESS) :
    mainModel op w =
      ⟨0,
       ((List.range w.progNumDevices).filter (fun i => w.binSize i != 0 &&
           w.openOk (artifactFilename op.output (removeSuffix (op.args.getD 0 ""))
             w.progNumDevices i))).map
         (fun i => (artifactFilename op.output (removeSuffix (op.args.getD 0 ""))
             w.progNumDevices i, w.binSize i)),
       ((List.range w.progNumDevices).filter (fun i => w.binSize i != 0 &&
           !w.openOk (artifactFilename op.output (removeSuffix (op.args.getD 0 ""))
             w.progNumDevices i))).map
         (fun i => "Failed to open: " ++ artifactFilename op.output
             (removeSuffix (op.args.getD 0 "")) w.progNumDevices i)⟩ := by
  obtain ⟨dt, hdt⟩ := h5
  obtain ⟨ss, hss⟩ := readSourceFiles_ok w h8 op.args
  have hlen : 0 < op.args.length := List.length_pos.mpr h3
  have hargs : ¬ (op.args.length < 1) := by omega
  have hplat : getPlatformIds w kNDefaultPlatformEntry
      = Except.ok (vectorResize ((List.range kNDefaultPlatformEntry).map w.platformIdAt)
          w.nPlatform) := by
    unfold getPlatformIds
    rw [h4, checkError_success]
  have hdev : ∀ pid n t, getDeviceIds w pid n t
      = Except.ok (vectorResize ((List.range n).map (w.deviceIdAt pid t))
          (w.nDevice pid t)) := by
    intro pid n t
    unfold getDeviceIds
    rw [h6, checkError_success]
  have hctx : ∀ ds, checkError w.table (w.contextErr ds) = Except.ok () := by
    intro ds
    rw [h7, checkError_success]
  have hbs : buildSwitch w = Except.ok () := buildSwitch_success h10
  unfold mainModel mainBody
  simp only [h1, h2, h11, h12, h13, h14, hplat, hdt, hdev, hctx, hss, h9, hbs,
    checkError_success, Bool.false_eq_true, if_false, if_true, hargs, ite_false]
  unfold writeLoop
  rw [writeLoopGo_eq]

/-- C3 witness: the amended statement on the all success transcript, where
the single device binary of four bytes is written to kernel.bin. -/
theorem extraction_write_failures_nonfatal_witness :
    mainModel opBase baseWorld = ⟨0, [("kernel.bin", 4)], []⟩ := by
  have h := extraction_write_failures_nonfatal opBase baseWorld rfl rfl
    (by decide) rfl ⟨CL_DEVICE_TYPE_DEFAULT, rfl⟩ (fun _ _ => rfl) (fun _ => rfl)
    (fun _ => rfl) rfl rfl rfl rfl rfl rfl
  rw [h]
  rfl

/-- C7: with syntax only mode requested, no artifact file is written on any
path, whatever the build outcome; and on a run whose discovery, context
creation, source reading, program creation and build all succeed, the run
stops right after the build with exit code 0, before any extraction query
runs. -/
theorem syntaxOnly_never_writes_artifacts (op : Options) (w : World)
    (h : op.fsyntaxOnly = true) :
    (mainModel op w).filesWritten = [] ∧
    (op.help = false → op.list = false → op.args ≠ [] →
      w.platformErr = CL_SUCCESS →
      (∃ dt, deviceTypeAt op.deviceType = Except.ok dt) →
      (∀ p t, w.deviceErr p t = CL_SUCCESS) →
      (∀ ds, w.contextErr ds = CL_SUCCESS) →
      (∀ f, (w.fileContent f).isSome) →
      w.createProgramErr = CL_SUCCESS →
      w.buildErr = CL_SUCCESS →
      mainModel op w = ⟨0, [], []⟩) := by
  constructor
  · unfold mainModel
    cases hb : mainBody op w with
    | error e => rfl
    | ok r =>
      unfold mainBody at hb
      simp only [h] at hb
      repeat' split at hb
      all_goals try (cases hb; rfl)
      all_goals simp_all
  · intro h1 h2 h3 h4 h5 h6 h7 h8 h9 h10
    obtain ⟨dt, hdt⟩ := h5
    obtain ⟨ss, hss⟩ := readSourceFiles_ok w h8 op.args
    have hlen : 0 < op.args.length := List.length_pos.mpr h3
    have hargs : ¬ (op.args.length < 1) := by omega
    have hplat : getPlatformIds w kNDefaultPlatformEntry
        = Except.ok (vectorResize ((List.range kNDefaultPlatformEntry).map w.platformIdAt)
            w.nPlatform) := by
      unfold getPlatformIds
      rw [h4, checkError_success]
    have hdev : ∀ pid n t, getDeviceIds w pid n t
        = Except.ok (vectorResize ((List.range n).map (w.deviceIdAt pid t))
            (w.nDevice pid t)) := by
      intro pid n t
      unfold getDeviceIds
      rw [h6, checkError_success]
    have hctx : ∀ ds, checkError w.table (w.contextErr ds) = Except.ok () := by
      intro ds
      rw [h7, checkError_success]
    have hbs : buildSwitch w = Except.ok () := buildSwitch_success h10
    unfold mainModel mainBody
    simp only [h, h1, h2, hplat, hdt, hdev, hctx, hss, h9, hbs, checkError_success,
      Bool.false_eq_true, if_false, if_true, hargs, ite_false]

/-- C7 witness: syntax only mode on the all success transcript writes no
file and exits 0. -/
theorem syntaxOnly_never_writes_artifacts_witness :
    (mainModel { opBase with fsyntaxOnly := true } baseWorld).filesWritten = [] ∧
    mainModel { opBase with fsyntaxOnly := true } baseWorld = ⟨0, [], []⟩ := by
  have h := syntaxOnly_never_writes_artifacts { opBase with fsyntaxOnly := true }
    baseWorld rfl
  exact ⟨h.1, h.2 rfl rfl (by decide) rfl ⟨CL_DEVICE_TYPE_DEFAULT, rfl⟩
    (fun _ _ => rfl) (fun _ => rfl) (fun _ => rfl) rfl rfl⟩

/-- C8: the all flag is parsed but never read afterwards: two invocations
that differ only in its value have the same observable behavior (exit code,
files written, diagnostics) on every runtime transcript. -/
theorem all_flag_has_no_effect (op : Options) (w : World) (b : Bool) :
    mainModel { op with all := b } w = mainModel op w := by
  cases op
  rfl

end Oclc
